import Mathlib

/-!
Verification of the performance / winds-aloft fuel-planning engine of
msfs-flightplanner.  The Lean definitions below are a shallow embedding of
the Python sources `poh_data.py` (cruise-row resolution), `fuel_plan.py`
(fuel-plan computation) and `winds_aloft.py` (FD wind-table decoding,
altitude interpolation, headwind components and wind adjustment).

Modelling conventions:
* Python floats are idealised as real numbers (`ℝ`); the static cruise-table
  data, which the source stores as decimal literals, is modelled over `ℚ` so
  that the table-resolution function stays executable.
* Python's `round` (banker's rounding: round half to even) is modelled by
  `pyRoundQ` / `pyRoundR`; `round(x, 1)` is `pyRound1Q` / `pyRound1R`.
* Python dicts holding records of fixed shape become structures; a Python
  function returning `None` on failure becomes `Option`.
-/

/-- Python `round(x)` for rationals: round half to even (banker's rounding). -/
def pyRoundQ (x : ℚ) : ℤ :=
  let f := ⌊x⌋
  if x - f < 1/2 then f
  else if 1/2 < x - f then f + 1
  else if f % 2 = 0 then f else f + 1

/-- Python `round(x, 1)` for rationals. -/
def pyRound1Q (x : ℚ) : ℚ := (pyRoundQ (x * 10) : ℚ) / 10

/-- Python `round(x)` for reals: round half to even (banker's rounding). -/
noncomputable def pyRoundR (x : ℝ) : ℤ :=
  let f := ⌊x⌋
  if x - f < 1/2 then f
  else if 1/2 < x - f then f + 1
  else if f % 2 = 0 then f else f + 1

/-- Python `round(x, 1)` for reals. -/
noncomputable def pyRound1R (x : ℝ) : ℝ := (pyRoundR (x * 10) : ℝ) / 10

theorem pyRoundQ_intCast (n : ℤ) : pyRoundQ (n : ℚ) = n := by
  unfold pyRoundQ
  simp

theorem pyRoundR_intCast (n : ℤ) : pyRoundR (n : ℝ) = n := by
  unfold pyRoundR
  simp

theorem pyRoundR_nonneg {x : ℝ} (hx : 0 ≤ x) : 0 ≤ pyRoundR x := by
  unfold pyRoundR
  have hf : (0 : ℤ) ≤ ⌊x⌋ := Int.floor_nonneg.mpr hx
  dsimp only
  split
  · exact hf
  · split
    · omega
    · split
      · exact hf
      · omega

/-! ### Cruise table rows (`poh_data.py`)

A row of a `cruise_table` entry: `{"fl": .., "ktas": .., "fuel_gph"/"fuel_pph": ..,
"power_pct": .., "notes": ..}`.  The source keeps the burn rate under one of two
keys selected consistently per aircraft (`fuel_gph` vs `fuel_pph`); the model
collapses this to a single `burn` field. -/
structure CruiseRow where
  fl : ℤ
  ktas : ℚ
  burn : ℚ
  power_pct : ℚ
  notes : String
deriving DecidableEq, Repr

/-- Python `max(l, key=lambda r: r["fl"])` run over `b :: l`: keeps the first
row on ties, replaces the accumulator only when a strictly larger `fl` appears. -/
def maxByFl (b : CruiseRow) (l : List CruiseRow) : CruiseRow :=
  l.foldl (fun acc r => if acc.fl < r.fl then r else acc) b

/-- Python `min(l, key=lambda r: r["fl"])` run over `a :: l`. -/
def minByFl (a : CruiseRow) (l : List CruiseRow) : CruiseRow :=
  l.foldl (fun acc r => if r.fl < acc.fl then r else acc) a

/-- The exact-match loop of `get_cruise_row`:
`for r in table: if r["fl"] == target_fl: return r`. -/
def findExactFl : List CruiseRow → ℤ → Option CruiseRow
  | [], _ => none
  | r :: rs, t => if r.fl = t then some r else findExactFl rs t

/-- The interpolated row built by `get_cruise_row` from the bracketing rows
`r1` (nearest at or below) and `r2` (nearest at or above), `poh_data.py`
lines 1069–1078. -/
def interpRow (r1 r2 : CruiseRow) (target_fl : ℤ) : CruiseRow :=
  let frac : ℚ := ((target_fl : ℚ) - (r1.fl : ℚ)) / ((r2.fl : ℚ) - (r1.fl : ℚ))
  { fl := target_fl
  , ktas := (pyRoundQ (r1.ktas + frac * (r2.ktas - r1.ktas)) : ℚ)
  , burn := pyRound1Q (r1.burn + frac * (r2.burn - r1.burn))
  , power_pct := (pyRoundQ (r1.power_pct + frac * (r2.power_pct - r1.power_pct)) : ℚ)
  , notes := "Interpolated FL" ++ toString r1.fl ++ "–FL" ++ toString r2.fl }

/-- The bracketing/interpolation part of `get_cruise_row` (`poh_data.py`
lines 1055–1078), reached when no row matches `target_fl` exactly. -/
def getCruiseRowBracket (t0 : CruiseRow) (rest : List CruiseRow) (target_fl : ℤ) :
    Option CruiseRow :=
  let below := (t0 :: rest).filter (fun r => decide (r.fl ≤ target_fl))
  let above := (t0 :: rest).filter (fun r => decide (target_fl ≤ r.fl))
  match below, above with
  | [], _ => some t0
  | _ :: _, [] => some ((t0 :: rest).getLast (List.cons_ne_nil t0 rest))
  | b :: bs, a :: as2 =>
    let r1 := maxByFl b bs
    let r2 := minByFl a as2
    if r1.fl = r2.fl then some r1
    else some (interpRow r1 r2 target_fl)

/-- `get_cruise_row(poh, target_fl)` (`poh_data.py` lines 1041–1078) applied to
the model's cruise table.  An empty table yields `none` (the source returns the
empty dict `{}`); an exact `fl` match returns that row; otherwise the bracketing
rows interpolate. -/
def get_cruise_row_table (table : List CruiseRow) (target_fl : ℤ) : Option CruiseRow :=
  match table with
  | [] => none
  | t0 :: rest =>
    match findExactFl (t0 :: rest) target_fl with
    | some r => some r
    | none => getCruiseRowBracket t0 rest target_fl

/-- The spec's PerformanceModel invariant: cruise-table altitudes are strictly
increasing. -/
def flSorted (l : List CruiseRow) : Prop :=
  l.Pairwise (fun a b => a.fl < b.fl)

theorem flSorted_injOn {l : List CruiseRow} (hs : flSorted l) :
    ∀ x ∈ l, ∀ y ∈ l, x.fl = y.fl → x = y := by
  induction l with
  | nil => intro x hx; exact absurd hx (List.not_mem_nil x)
  | cons a t ih =>
    rcases List.pairwise_cons.mp hs with ⟨ha, ht⟩
    intro x hx y hy hxy
    rcases List.mem_cons.mp hx with hx | hx <;> rcases List.mem_cons.mp hy with hy | hy
    · rw [hx, hy]
    · exact absurd hxy (by rw [hx]; exact (ha y hy).ne)
    · exact absurd hxy.symm (by rw [hy]; exact (ha x hx).ne)
    · exact ih ht x hx y hy hxy

theorem findExactFl_eq_none {l : List CruiseRow} {t : ℤ} (h : ∀ x ∈ l, x.fl ≠ t) :
    findExactFl l t = none := by
  induction l with
  | nil => rfl
  | cons a rs ih =>
    simp only [findExactFl]
    rw [if_neg (h a (List.mem_cons_self a rs))]
    exact ih (fun x hx => h x (List.mem_cons_of_mem a hx))

theorem findExactFl_eq_some {l : List CruiseRow} {t : ℤ} {r : CruiseRow}
    (hs : flSorted l) (hr : r ∈ l) (hfl : r.fl = t) :
    findExactFl l t = some r := by
  induction l with
  | nil => exact absurd hr (List.not_mem_nil r)
  | cons a rs ih =>
    simp only [findExactFl]
    by_cases ha : a.fl = t
    · rw [if_pos ha]
      have : a = r := flSorted_injOn hs a (List.mem_cons_self a rs) r hr (by rw [ha, hfl])
      rw [this]
    · rw [if_neg ha]
      have hr' : r ∈ rs := by
        rcases List.mem_cons.mp hr with h | h
        · exact absurd (h ▸ hfl) ha
        · exact h
      exact ih (List.pairwise_cons.mp hs).2 hr'

theorem maxByFl_eq {r1 : CruiseRow} :
    ∀ (l : List CruiseRow) (b : CruiseRow), (r1 = b ∨ r1 ∈ l) →
      (∀ x ∈ l, x.fl ≤ r1.fl) → b.fl ≤ r1.fl → (b.fl = r1.fl → b = r1) →
      (∀ x ∈ l, x.fl = r1.fl → x = r1) → maxByFl b l = r1
  | [], b, hmem, _, _, hbe, _ => by
    rcases hmem with h | h
    · exact h.symm
    · exact absurd h (List.not_mem_nil r1)
  | a :: l, b, hmem, hall, hble, hbe, halle => by
    have ha_mem := List.mem_cons_self a l
    have hale : a.fl ≤ r1.fl := hall a ha_mem
    have hae : a.fl = r1.fl → a = r1 := halle a ha_mem
    have step : maxByFl b (a :: l) = maxByFl (if b.fl < a.fl then a else b) l := rfl
    rw [step]
    by_cases hba : b.fl < a.fl
    · rw [if_pos hba]
      refine maxByFl_eq l a ?_ (fun x hx => hall x (List.mem_cons_of_mem a hx)) hale hae
        (fun x hx => halle x (List.mem_cons_of_mem a hx))
      rcases hmem with h | h
      · -- r1 = b is impossible here: a.fl ≤ r1.fl = b.fl < a.fl
        exfalso
        rw [h] at hale
        exact absurd hale (not_le.mpr hba)
      · rcases List.mem_cons.mp h with h' | h'
        · exact Or.inl h'
        · exact Or.inr h'
    · rw [if_neg hba]
      refine maxByFl_eq l b ?_ (fun x hx => hall x (List.mem_cons_of_mem a hx)) hble hbe
        (fun x hx => halle x (List.mem_cons_of_mem a hx))
      rcases hmem with h | h
      · exact Or.inl h
      · rcases List.mem_cons.mp h with h' | h'
        · -- r1 = a but a was not taken: then a.fl ≤ b.fl ≤ r1.fl = a.fl, so b = r1
          have hr1b : r1.fl ≤ b.fl := by rw [h']; exact not_lt.mp hba
          exact Or.inl (hbe (le_antisymm hble hr1b)).symm
        · exact Or.inr h'

theorem minByFl_eq {r2 : CruiseRow} :
    ∀ (l : List CruiseRow) (a : CruiseRow), (r2 = a ∨ r2 ∈ l) →
      (∀ x ∈ l, r2.fl ≤ x.fl) → r2.fl ≤ a.fl → (a.fl = r2.fl → a = r2) →
      (∀ x ∈ l, x.fl = r2.fl → x = r2) → minByFl a l = r2
  | [], a, hmem, _, _, hae, _ => by
    rcases hmem with h | h
    · exact h.symm
    · exact absurd h (List.not_mem_nil r2)
  | c :: l, a, hmem, hall, hale, hae, halle => by
    have hc_mem := List.mem_cons_self c l
    have hcle : r2.fl ≤ c.fl := hall c hc_mem
    have hce : c.fl = r2.fl → c = r2 := halle c hc_mem
    have step : minByFl a (c :: l) = minByFl (if c.fl < a.fl then c else a) l := rfl
    rw [step]
    by_cases hca : c.fl < a.fl
    · rw [if_pos hca]
      refine minByFl_eq l c ?_ (fun x hx => hall x (List.mem_cons_of_mem c hx)) hcle hce
        (fun x hx => halle x (List.mem_cons_of_mem c hx))
      rcases hmem with h | h
      · -- r2 = a is impossible here: c.fl < a.fl = r2.fl ≤ c.fl
        exfalso
        rw [h] at hcle
        exact absurd hcle (not_le.mpr hca)
      · rcases List.mem_cons.mp h with h' | h'
        · exact Or.inl h'
        · exact Or.inr h'
    · rw [if_neg hca]
      refine minByFl_eq l a ?_ (fun x hx => hall x (List.mem_cons_of_mem c hx)) hale hae
        (fun x hx => halle x (List.mem_cons_of_mem c hx))
      rcases hmem with h | h
      · exact Or.inl h
      · rcases List.mem_cons.mp h with h' | h'
        · -- r2 = c but c was not taken: a.fl ≤ c.fl = r2.fl, so a = r2
          have har2 : a.fl ≤ r2.fl := by rw [h']; exact not_lt.mp hca
          exact Or.inl (hae (le_antisymm har2 hale)).symm
        · exact Or.inr h'

theorem flSorted_head_le {t0 : CruiseRow} {rest : List CruiseRow}
    (hs : flSorted (t0 :: rest)) : ∀ x ∈ t0 :: rest, t0.fl ≤ x.fl := by
  intro x hx
  rcases List.mem_cons.mp hx with h | h
  · rw [h]
  · exact le_of_lt ((List.pairwise_cons.mp hs).1 x h)

theorem flSorted_le_getLast :
    ∀ (l : List CruiseRow) (hne : l ≠ []), flSorted l →
      ∀ x ∈ l, x.fl ≤ (l.getLast hne).fl
  | [], hne, _ => absurd rfl hne
  | [a], _, _ => by
    intro x hx
    rcases List.mem_cons.mp hx with h | h
    · rw [h]; rfl
    · exact absurd h (List.not_mem_nil x)
  | a :: b :: l, _, hs => by
    intro x hx
    have htail := (List.pairwise_cons.mp hs).2
    have hlast : (a :: b :: l).getLast (List.cons_ne_nil a (b :: l))
        = (b :: l).getLast (List.cons_ne_nil b l) := by
      simp [List.getLast]
    rcases List.mem_cons.mp hx with h | h
    · rw [h, hlast]
      exact le_of_lt ((List.pairwise_cons.mp hs).1 _
        (List.getLast_mem (List.cons_ne_nil b l)))
    · rw [hlast]
      exact flSorted_le_getLast (b :: l) (List.cons_ne_nil b l) htail x h

/-- C4: for a cruise table bracketing the target flight level strictly between
two rows at distinct altitudes, `get_cruise_row` returns the linearly
interpolated row: with `frac = (target − r1.fl) / (r2.fl − r1.fl)`, airspeed and
power are `lower + frac * (upper − lower)` rounded to whole units, the burn
rate the same rounded to one decimal, and the notes mark the interpolation
between the two bracketing altitudes. -/
theorem C4_cruise_row_interpolation
    (table : List CruiseRow) (t : ℤ) (r1 r2 : CruiseRow)
    (hs : flSorted table) (h1 : r1 ∈ table) (h2 : r2 ∈ table)
    (hl : r1.fl < t) (hh : t < r2.fl)
    (hmax : ∀ x ∈ table, x.fl ≤ t → x.fl ≤ r1.fl)
    (hmin : ∀ x ∈ table, t ≤ x.fl → r2.fl ≤ x.fl) :
    get_cruise_row_table table t
      = some { fl := t
             , ktas := (pyRoundQ (r1.ktas
                 + ((t : ℚ) - (r1.fl : ℚ)) / ((r2.fl : ℚ) - (r1.fl : ℚ))
                   * (r2.ktas - r1.ktas)) : ℚ)
             , burn := pyRound1Q (r1.burn
                 + ((t : ℚ) - (r1.fl : ℚ)) / ((r2.fl : ℚ) - (r1.fl : ℚ))
                   * (r2.burn - r1.burn))
             , power_pct := (pyRoundQ (r1.power_pct
                 + ((t : ℚ) - (r1.fl : ℚ)) / ((r2.fl : ℚ) - (r1.fl : ℚ))
                   * (r2.power_pct - r1.power_pct)) : ℚ)
             , notes := "Interpolated FL" ++ toString r1.fl ++ "–FL" ++ toString r2.fl } := by
  match table, h1 with
  | t0 :: rest, h1 =>
  have hfind : findExactFl (t0 :: rest) t = none := by
    refine findExactFl_eq_none (fun x hx hxe => ?_)
    have := hmax x hx (le_of_eq hxe)
    omega
  -- the `below` candidates and their maximum
  have hr1b : r1 ∈ (t0 :: rest).filter (fun r => decide (r.fl ≤ t)) :=
    List.mem_filter.mpr ⟨h1, by simpa using le_of_lt hl⟩
  have hr2a : r2 ∈ (t0 :: rest).filter (fun r => decide (t ≤ r.fl)) :=
    List.mem_filter.mpr ⟨h2, by simpa using le_of_lt hh⟩
  match hbv : (t0 :: rest).filter (fun r => decide (r.fl ≤ t)),
        hav : (t0 :: rest).filter (fun r => decide (t ≤ r.fl)) with
  | [], _ => rw [hbv] at hr1b; exact absurd hr1b (List.not_mem_nil r1)
  | _ :: _, [] => rw [hav] at hr2a; exact absurd hr2a (List.not_mem_nil r2)
  | b :: bs, a :: as2 =>
    have hmem_below : ∀ x, x ∈ b :: bs → x ∈ t0 :: rest ∧ x.fl ≤ t := by
      intro x hx
      rw [← hbv] at hx
      have := List.mem_filter.mp hx
      exact ⟨this.1, by simpa using this.2⟩
    have hmem_above : ∀ x, x ∈ a :: as2 → x ∈ t0 :: rest ∧ t ≤ x.fl := by
      intro x hx
      rw [← hav] at hx
      have := List.mem_filter.mp hx
      exact ⟨this.1, by simpa using this.2⟩
    have hmax1 : maxByFl b bs = r1 := by
      rw [hbv] at hr1b
      have hb := hmem_below b (List.mem_cons_self b bs)
      refine maxByFl_eq bs b ?_ ?_ (hmax b hb.1 hb.2) ?_ ?_
      · rcases List.mem_cons.mp hr1b with h | h
        · exact Or.inl h
        · exact Or.inr h
      · intro x hx
        have hx' := hmem_below x (List.mem_cons_of_mem b hx)
        exact hmax x hx'.1 hx'.2
      · intro he
        exact flSorted_injOn hs b hb.1 r1 h1 he
      · intro x hx he
        exact flSorted_injOn hs x (hmem_below x (List.mem_cons_of_mem b hx)).1 r1 h1 he
    have hmin1 : minByFl a as2 = r2 := by
      rw [hav] at hr2a
      have ha := hmem_above a (List.mem_cons_self a as2)
      refine minByFl_eq as2 a ?_ ?_ (hmin a ha.1 ha.2) ?_ ?_
      · rcases List.mem_cons.mp hr2a with h | h
        · exact Or.inl h
        · exact Or.inr h
      · intro x hx
        have hx' := hmem_above x (List.mem_cons_of_mem a hx)
        exact hmin x hx'.1 hx'.2
      · intro he
        exact flSorted_injOn hs a ha.1 r2 h2 he
      · intro x hx he
        exact flSorted_injOn hs x (hmem_above x (List.mem_cons_of_mem a hx)).1 r2 h2 he
    have hne : r1.fl ≠ r2.fl := by omega
    simp only [get_cruise_row_table, hfind, getCruiseRowBracket, hbv, hav,
      hmax1, hmin1, if_neg hne, interpRow]

/-- C5: `get_cruise_row` returns an exact-altitude row unmodified, clamps to the
lowest (resp. highest) row below (resp. above) the table range with no
extrapolation, and returns the empty sentinel on an empty cruise table. -/
theorem C5_cruise_row_boundary :
    (∀ (table : List CruiseRow) (t : ℤ) (r : CruiseRow),
        flSorted table → r ∈ table → r.fl = t →
        get_cruise_row_table table t = some r)
    ∧ (∀ (t0 : CruiseRow) (rest : List CruiseRow) (t : ℤ),
        flSorted (t0 :: rest) → (∀ x ∈ t0 :: rest, t < x.fl) →
        get_cruise_row_table (t0 :: rest) t = some t0
          ∧ (∀ x ∈ t0 :: rest, t0.fl ≤ x.fl))
    ∧ (∀ (t0 : CruiseRow) (rest : List CruiseRow) (t : ℤ),
        flSorted (t0 :: rest) → (∀ x ∈ t0 :: rest, x.fl < t) →
        get_cruise_row_table (t0 :: rest) t
            = some ((t0 :: rest).getLast (List.cons_ne_nil t0 rest))
          ∧ (∀ x ∈ t0 :: rest, x.fl ≤ ((t0 :: rest).getLast (List.cons_ne_nil t0 rest)).fl))
    ∧ (∀ t : ℤ, get_cruise_row_table [] t = none) := by
  refine ⟨?_, ?_, ?_, fun t => rfl⟩
  · intro table t r hs hr hfl
    match table, hr with
    | t0 :: rest, hr =>
      simp only [get_cruise_row_table, findExactFl_eq_some hs hr hfl]
  · intro t0 rest t hs hlt
    have hfind : findExactFl (t0 :: rest) t = none :=
      findExactFl_eq_none (fun x hx => (hlt x hx).ne')
    have hbv : (t0 :: rest).filter (fun r => decide (r.fl ≤ t)) = [] := by
      simp only [List.filter_eq_nil_iff]
      intro x hx
      simpa using not_le.mpr (hlt x hx)
    refine ⟨?_, flSorted_head_le hs⟩
    simp only [get_cruise_row_table, hfind, getCruiseRowBracket, hbv]
  · intro t0 rest t hs hgt
    have hfind : findExactFl (t0 :: rest) t = none :=
      findExactFl_eq_none (fun x hx => (hgt x hx).ne)
    have hbv : (t0 :: rest).filter (fun r => decide (r.fl ≤ t)) = t0 :: rest := by
      rw [List.filter_eq_self]
      intro x hx
      simpa using le_of_lt (hgt x hx)
    have hav : (t0 :: rest).filter (fun r => decide (t ≤ r.fl)) = [] := by
      simp only [List.filter_eq_nil_iff]
      intro x hx
      simpa using not_le.mpr (hgt x hx)
    refine ⟨?_, flSorted_le_getLast (t0 :: rest) (List.cons_ne_nil t0 rest) hs⟩
    simp only [get_cruise_row_table, hfind, getCruiseRowBracket, hbv, hav]

/-! ### FD wind-token decoding (`winds_aloft.py`, `_decode_fd`)

The decoder works on the textual token as a list of characters.  `stripChars`
models Python `str.strip()`, `parsePyInt` models both the regex group
`[+-]?\d+` and Python `int()` applied to a whitespace-free digit suffix, and
`matchFD` models the regex `^(\d{2})(\d{2})([+-]?\d+)?$`. -/

def isPySpace (c : Char) : Bool := c.isWhitespace

/-- Python `str.strip()`: drop leading and trailing whitespace. -/
def stripChars (l : List Char) : List Char :=
  ((l.dropWhile isPySpace).reverse.dropWhile isPySpace).reverse

def digitVal (c : Char) : ℕ := c.toNat - 48

/-- Value of a nonempty all-digit string, else `none`. -/
def parseNatDigits (l : List Char) : Option ℕ :=
  if l ≠ [] ∧ l.all Char.isDigit
  then some (l.foldl (fun a c => a * 10 + digitVal c) 0)
  else none

/-- Signed integer literal: exactly the strings matched by the regex group
`[+-]?\d+` (also the whitespace-free strings accepted by Python `int()`). -/
def parsePyInt (l : List Char) : Option ℤ :=
  match l with
  | '+' :: rest => (parseNatDigits rest).map (fun n => (n : ℤ))
  | '-' :: rest => (parseNatDigits rest).map (fun n => -(n : ℤ))
  | _ => (parseNatDigits l).map (fun n => (n : ℤ))

/-- The regex `^(\d{2})(\d{2})([+-]?\d+)?$` of `_decode_fd`: two two-digit
groups and an optional signed temperature suffix. -/
def matchFD (l : List Char) : Option (ℕ × ℕ × Option ℤ) :=
  match l with
  | a :: b :: c :: d :: rest =>
    if a.isDigit && b.isDigit && c.isDigit && d.isDigit then
      match rest with
      | [] => some (10 * digitVal a + digitVal b, 10 * digitVal c + digitVal d, none)
      | _ :: _ =>
        match parsePyInt rest with
        | some t => some (10 * digitVal a + digitVal b, 10 * digitVal c + digitVal d, some t)
        | none => none
    else none
  | _ => none

/-- One decoded wind sample.  The source returns the dict
`{"dir": .., "speed_kt": .., "temp_c": .., "variable": ..}`; the dict key
`"variable"` is a Lean keyword, so the field is named `light_variable`. -/
structure WindSample where
  dir : ℤ
  speed_kt : ℤ
  temp_c : ℤ
  light_variable : Bool
deriving DecidableEq, Repr

/-- Temperature of a `9900…` (light-and-variable) token: the suffix after the
four marker digits through Python `int()`, 0 when absent or unparseable, and
forced negative at or above 24 000 ft (the sign flip sits inside the `try`, so
it is skipped when parsing fails). -/
def temp9900 (rest : List Char) (alt_ft : ℤ) : ℤ :=
  match parsePyInt rest with
  | some t => if 24000 ≤ alt_ft then -(t.natAbs : ℤ) else t
  | none => 0

/-- Standard-token sample from the regex groups: high-wind correction
(`DD > 50` ⇒ `DD -= 50`, `SS += 100`), direction `DD * 10`, and the
above-FL240 forced-negative temperature. -/
def mkStandard (dd0 ss0 : ℕ) (tt : Option ℤ) (alt_ft : ℤ) : WindSample :=
  let dd := if 50 < dd0 then dd0 - 50 else dd0
  let ss := if 50 < dd0 then ss0 + 100 else ss0
  let t0 : ℤ := tt.getD 0
  { dir := (dd : ℤ) * 10
  , speed_kt := (ss : ℤ)
  , temp_c := if 24000 ≤ alt_ft then -(t0.natAbs : ℤ) else t0
  , light_variable := false }

/-- `_decode_fd(code, alt_ft)` on the stripped character list. -/
def decodeCore (code0 : List Char) (alt_ft : ℤ) : Option WindSample :=
  let code := stripChars code0
  if code = [] ∨ code = ['/', '/', '/', '/'] then none
  else if code.take 4 = ['9', '9', '0', '0'] then
    some { dir := 0, speed_kt := 0, temp_c := temp9900 (code.drop 4) alt_ft
         , light_variable := true }
  else
    match matchFD code with
    | none => none
    | some (dd0, ss0, tt) => some (mkStandard dd0 ss0 tt alt_ft)

/-- `_decode_fd` (`winds_aloft.py` lines 134–194). -/
def decode_fd (code : String) (alt_ft : ℤ) : Option WindSample :=
  decodeCore code.data alt_ft

theorem dropWhile_of_forall_not {p : Char → Bool} :
    ∀ {l : List Char}, (∀ c ∈ l, p c = false) → l.dropWhile p = l
  | [], _ => rfl
  | c :: rest, h => by
    simp only [List.dropWhile]
    rw [h c (List.mem_cons_self c rest)]

theorem stripChars_id {l : List Char} (h : ∀ c ∈ l, isPySpace c = false) :
    stripChars l = l := by
  unfold stripChars
  rw [dropWhile_of_forall_not h,
      dropWhile_of_forall_not (fun c hc => h c (List.mem_reverse.mp hc)),
      List.reverse_reverse]

theorem digitVal_le_9 {c : Char} (h : c.isDigit = true) : digitVal c ≤ 9 := by
  simp only [Char.isDigit, Bool.and_eq_true, decide_eq_true_eq] at h
  obtain ⟨_, h2⟩ := h
  have : c.toNat ≤ 57 := h2
  unfold digitVal
  omega

theorem isDigit_ne_slash {c : Char} (h : c.isDigit = true) : c ≠ '/' := by
  intro he
  subst he
  exact absurd h (by decide)

theorem matchFD_inv {l : List Char} {dd ss : ℕ} {tt : Option ℤ}
    (h : matchFD l = some (dd, ss, tt)) :
    ∃ a b c d rest, l = a :: b :: c :: d :: rest ∧
      a.isDigit = true ∧ b.isDigit = true ∧ c.isDigit = true ∧ d.isDigit = true ∧
      dd = 10 * digitVal a + digitVal b ∧ ss = 10 * digitVal c + digitVal d ∧
      ((rest = [] ∧ tt = none)
        ∨ (rest ≠ [] ∧ parsePyInt rest = some (tt.getD 0) ∧ tt ≠ none)) := by
  match l with
  | [] => simp [matchFD] at h
  | [a] => simp [matchFD] at h
  | [a, b] => simp [matchFD] at h
  | [a, b, c] => simp [matchFD] at h
  | a :: b :: c :: d :: rest =>
    refine ⟨a, b, c, d, rest, rfl, ?_⟩
    simp only [matchFD] at h
    by_cases hd4 : (a.isDigit && b.isDigit && c.isDigit && d.isDigit) = true
    case neg => rw [if_neg hd4] at h; exact absurd h (by simp)
    rw [if_pos hd4] at h
    have hds := hd4
    simp only [Bool.and_eq_true] at hds
    obtain ⟨⟨⟨ha, hb⟩, hc⟩, hdd⟩ := hds
    cases rest with
    | nil =>
      simp only [Option.some.injEq, Prod.mk.injEq] at h
      obtain ⟨h1, h2, h3⟩ := h
      exact ⟨ha, hb, hc, hdd, h1.symm, h2.symm, Or.inl ⟨rfl, h3.symm⟩⟩
    | cons r rs =>
      cases hp : parsePyInt (r :: rs) with
      | none => rw [hp] at h; exact absurd h (by simp)
      | some t =>
        rw [hp] at h
        simp only [Option.some.injEq, Prod.mk.injEq] at h
        obtain ⟨h1, h2, h3⟩ := h
        refine ⟨ha, hb, hc, hdd, h1.symm, h2.symm, Or.inr ⟨by simp, ?_, ?_⟩⟩
        · subst h3
          simp [hp]
        · subst h3
          simp

theorem matchFD_bounds {l : List Char} {dd ss : ℕ} {tt : Option ℤ}
    (h : matchFD l = some (dd, ss, tt)) : dd ≤ 99 ∧ ss ≤ 99 := by
  obtain ⟨a, b, c, d, rest, _, ha, hb, hc, hd, hdde, hsse, _⟩ := matchFD_inv h
  have := digitVal_le_9 ha
  have := digitVal_le_9 hb
  have := digitVal_le_9 hc
  have := digitVal_le_9 hd
  omega

/-- C2: wind-token decoding.  `"0311+00"` gives direction 30, speed 11,
temperature 0; any whitespace-free token beginning `9900` decodes as
light-and-variable with direction 0 and speed 0; every standard token whose
first two-digit group `DD` exceeds 50 (other than the `9900` marker) gets the
high-altitude correction: direction `(DD − 50) * 10`, speed `SS + 100`. -/
theorem C2_wind_token_decode :
    (decode_fd "0311+00" 3000
        = some { dir := 30, speed_kt := 11, temp_c := 0, light_variable := false })
    ∧ (∀ (rest : List Char) (alt : ℤ), (∀ c ∈ rest, isPySpace c = false) →
        ∃ t, decode_fd (String.mk ('9' :: '9' :: '0' :: '0' :: rest)) alt
          = some { dir := 0, speed_kt := 0, temp_c := t, light_variable := true })
    ∧ (∀ (l : List Char) (alt : ℤ) (dd ss : ℕ) (tt : Option ℤ),
        (∀ c ∈ l, isPySpace c = false) → matchFD l = some (dd, ss, tt) →
        50 < dd → ¬(dd = 99 ∧ ss = 0) →
        ∃ s, decode_fd (String.mk l) alt = some s ∧ s.dir = ((dd : ℤ) - 50) * 10
          ∧ s.speed_kt = (ss : ℤ) + 100 ∧ s.light_variable = false) := by
  refine ⟨by decide, ?_, ?_⟩
  · intro rest alt hws
    have hws' : ∀ c ∈ '9' :: '9' :: '0' :: '0' :: rest, isPySpace c = false := by
      intro c hc
      simp only [List.mem_cons] at hc
      rcases hc with h | h | h | h | h
      · subst h; decide
      · subst h; decide
      · subst h; decide
      · subst h; decide
      · exact hws c h
    refine ⟨temp9900 rest alt, ?_⟩
    show decodeCore ('9' :: '9' :: '0' :: '0' :: rest) alt = _
    simp only [decodeCore, stripChars_id hws']
    rw [if_neg (by simp),
      if_pos (show List.take 4 ('9' :: '9' :: '0' :: '0' :: rest) = ['9', '9', '0', '0']
        from rfl)]
    rfl
  · intro l alt dd ss tt hws hm hdd50 h99
    obtain ⟨a, b, c, d, rest, hl, ha, hb, hc, hd, hdde, hsse, _⟩ := matchFD_inv hm
    subst hl
    have hguard : ¬(a :: b :: c :: d :: rest = []
        ∨ a :: b :: c :: d :: rest = ['/', '/', '/', '/']) := by
      rintro (h | h)
      · simp at h
      · injection h with h1 _
        exact isDigit_ne_slash ha h1
    have htake : (a :: b :: c :: d :: rest).take 4 ≠ ['9', '9', '0', '0'] := by
      intro he
      have he' : [a, b, c, d] = ['9', '9', '0', '0'] := he
      simp only [List.cons.injEq, and_true] at he'
      obtain ⟨rfl, rfl, rfl, rfl⟩ := he'
      refine h99 ⟨?_, ?_⟩
      · rw [hdde]; decide
      · rw [hsse]; decide
    refine ⟨mkStandard dd ss tt alt, ?_, ?_, ?_, rfl⟩
    · show decodeCore (a :: b :: c :: d :: rest) alt = _
      simp only [decodeCore, stripChars_id hws]
      rw [if_neg hguard, if_neg htake, hm]
    · simp only [mkStandard]
      rw [if_pos hdd50, Nat.cast_sub (le_of_lt hdd50)]
      norm_num
    · simp only [mkStandard]
      rw [if_pos hdd50]
      push_cast
      ring

/-- C3 counterexample: below 24 000 ft the decoder accepts a temperature
suffix with no explicit sign (token `"031105"` decodes with temp +5), so an
explicit sign is not required there. -/
theorem C3_counterexample :
    decode_fd "031105" 3000
      = some { dir := 30, speed_kt := 11, temp_c := 5, light_variable := false } := by
  decide

/-- C3 (amended): at or above 24 000 ft every decoded temperature is forced
non-positive; below 24 000 ft the printed signed suffix is respected verbatim
(an explicit sign, when present, is honoured; it is not required). -/
theorem C3_temperature_sign :
    (∀ (code : String) (alt : ℤ) (s : WindSample),
        24000 ≤ alt → decode_fd code alt = some s → s.temp_c ≤ 0)
    ∧ (∀ (l : List Char) (alt : ℤ) (dd ss : ℕ) (t : ℤ),
        alt < 24000 → (∀ c ∈ l, isPySpace c = false) →
        matchFD l = some (dd, ss, some t) →
        ∃ s, decode_fd (String.mk l) alt = some s ∧ s.temp_c = t) := by
  constructor
  · intro code alt s halt h
    simp only [decode_fd, decodeCore] at h
    split at h
    · exact absurd h (by simp)
    · split at h
      · injection h with h'
        rw [← h']
        show temp9900 _ alt ≤ 0
        unfold temp9900
        cases parsePyInt (List.drop 4 (stripChars code.data)) with
        | none => simp
        | some t =>
          simp only [if_pos halt]
          omega
      · split at h
        · exact absurd h (by simp)
        · injection h with h'
          rw [← h']
          show (mkStandard _ _ _ alt).temp_c ≤ 0
          simp only [mkStandard]
          rw [if_pos halt]
          omega
  · intro l alt dd ss t halt hws hm
    obtain ⟨a, b, c, d, rest, hl, ha, hb, hc, hd, hdde, hsse, hrest⟩ := matchFD_inv hm
    subst hl
    have hguard : ¬(a :: b :: c :: d :: rest = []
        ∨ a :: b :: c :: d :: rest = ['/', '/', '/', '/']) := by
      rintro (h | h)
      · simp at h
      · injection h with h1 _
        exact isDigit_ne_slash ha h1
    rcases hrest with ⟨_, htt⟩ | ⟨_, hpp, _⟩
    · exact absurd htt (by simp)
    · by_cases h9 : (a :: b :: c :: d :: rest).take 4 = ['9', '9', '0', '0']
      · refine ⟨{ dir := 0, speed_kt := 0, temp_c := temp9900 rest alt
                , light_variable := true }, ?_, ?_⟩
        · show decodeCore (a :: b :: c :: d :: rest) alt = _
          simp only [decodeCore, stripChars_id hws]
          rw [if_neg hguard, if_pos h9]
          rfl
        · show temp9900 rest alt = t
          unfold temp9900
          rw [hpp]
          simp only [Option.getD_some]
          rw [if_neg (not_le.mpr halt)]
      · refine ⟨mkStandard dd ss (some t) alt, ?_, ?_⟩
        · show decodeCore (a :: b :: c :: d :: rest) alt = _
          simp only [decodeCore, stripChars_id hws]
          rw [if_neg hguard, if_neg h9, hm]
        · simp only [mkStandard]
          rw [if_neg (not_le.mpr halt)]
          rfl

/-! ### Vector interpolation and headwind components (`winds_aloft.py`)

`math.radians` / `math.degrees` / `math.atan2` become their ideal real-number
counterparts; `atan2 y x` is the argument of the complex number `x + y·i`,
which matches `math.atan2`'s range `(−π, π]`. -/

noncomputable def radians (x : ℝ) : ℝ := x * Real.pi / 180

noncomputable def degrees (x : ℝ) : ℝ := x * 180 / Real.pi

noncomputable def atan2 (y x : ℝ) : ℝ := Complex.arg ⟨x, y⟩

/-- `_to_uv(direction, speed)` (`winds_aloft.py` lines 129–131). -/
noncomputable def to_uv (direction speed : ℤ) : ℝ × ℝ :=
  (-(speed : ℝ) * Real.sin (radians (direction : ℝ)),
   -(speed : ℝ) * Real.cos (radians (direction : ℝ)))

/-- The altitude interpolator: the vector-interpolation block of
`_parse_fd_table` (`winds_aloft.py` lines 108–126), as a function of the two
bracketing samples and the altitude fraction `(alt − lo) / (hi − lo)`. -/
noncomputable def interpSample (r1 r2 : WindSample) (frac : ℝ) : WindSample :=
  let uv1 := to_uv r1.dir r1.speed_kt
  let uv2 := to_uv r2.dir r2.speed_kt
  let u := uv1.1 + frac * (uv2.1 - uv1.1)
  let v := uv1.2 + frac * (uv2.2 - uv1.2)
  let spd := pyRoundR (Real.sqrt (u * u + v * v))
  { dir := if 1 ≤ spd then pyRoundR (degrees (atan2 (-u) (-v))) % 360 else 0
  , speed_kt := spd
  , temp_c := pyRoundR ((r1.temp_c : ℝ) + frac * ((r2.temp_c : ℝ) - (r1.temp_c : ℝ)))
  , light_variable := r1.light_variable }

/-- `headwind_component(wind_dir, wind_speed, course_deg)`
(`winds_aloft.py` lines 284–286). -/
noncomputable def headwind_component (wind_dir wind_speed : ℤ) (course_deg : ℝ) : ℝ :=
  pyRound1R ((wind_speed : ℝ) * Real.cos (radians ((wind_dir : ℝ) - course_deg)))

/-- `wind_corrected_groundspeed(tas_kt, wind_dir, wind_speed, course_deg)`
(`winds_aloft.py` lines 294–296). -/
noncomputable def wind_corrected_groundspeed (tas_kt : ℝ) (wind_dir wind_speed : ℤ)
    (course_deg : ℝ) : ℝ :=
  max 1 (tas_kt - headwind_component wind_dir wind_speed course_deg)

theorem pyRound1R_intCast (n : ℤ) : pyRound1R (n : ℝ) = (n : ℝ) := by
  unfold pyRound1R
  rw [show ((n : ℝ) * 10) = ((n * 10 : ℤ) : ℝ) by push_cast; ring, pyRoundR_intCast]
  push_cast
  ring

/-- C9: a wind from the course heading is a pure headwind (`headwind = speed`);
a wind from the reciprocal heading is a pure tailwind (`headwind = −speed`). -/
theorem C9_headwind_sign_convention (d s : ℤ) :
    headwind_component d s (d : ℝ) = (s : ℝ)
    ∧ headwind_component (d + 180) s (d : ℝ) = -(s : ℝ) := by
  constructor
  · unfold headwind_component
    rw [sub_self, show radians 0 = 0 by simp [radians], Real.cos_zero, mul_one,
      pyRound1R_intCast]
  · unfold headwind_component
    rw [show ((d + 180 : ℤ) : ℝ) - (d : ℝ) = 180 by push_cast; ring,
      show radians 180 = Real.pi by unfold radians; field_simp,
      Real.cos_pi, mul_neg_one,
      show -((s : ℤ) : ℝ) = ((-s : ℤ) : ℝ) by push_cast; ring,
      pyRound1R_intCast]

theorem pyRoundR_zero : pyRoundR (0 : ℝ) = 0 := by
  simpa using pyRoundR_intCast 0

theorem atan2_zero_ten : atan2 0 10 = 0 := by
  unfold atan2
  rw [show (⟨10, 0⟩ : ℂ) = ((10 : ℝ) : ℂ) by apply Complex.ext <;> simp]
  exact Complex.arg_ofReal_of_nonneg (by norm_num)

theorem sqrt_hundred : Real.sqrt (100 : ℝ) = 10 := by
  rw [show (100 : ℝ) = 10 ^ 2 by norm_num]
  exact Real.sqrt_sq (by norm_num)

/-- C10 counterexample: a bracketing pair whose lower sample is
light-and-variable (direction 0, speed 0) and whose upper sample is a
20-knot wind, at fraction 1/100, interpolates to speed 0 — the claimed
"nonzero vector-interpolated speed" does not hold for every such pair. -/
theorem C10_counterexample :
    interpSample { dir := 0, speed_kt := 0, temp_c := 0, light_variable := true }
        { dir := 0, speed_kt := 20, temp_c := 0, light_variable := false } (1/100)
      = { dir := 0, speed_kt := 0, temp_c := 0, light_variable := true } := by
  have hfifth : pyRoundR ((1 : ℝ)/5) = 0 := by
    unfold pyRoundR
    norm_num
  have hsq : Real.sqrt ((1 : ℝ)/25) = 1/5 := by
    rw [show ((1 : ℝ)/25) = (1/5) ^ 2 by norm_num]
    exact Real.sqrt_sq (by norm_num)
  simp only [interpSample, to_uv, radians]
  norm_num [hsq, hfifth, pyRoundR_zero]

/-- C10 (amended): the interpolated sample's variable flag is copied from the
lower bracketing sample only (the upper sample's flag is ignored), and there
are bracketing pairs — lower light-and-variable, upper a 20-knot wind, at
fraction 1/2 — whose interpolation carries both `variable = true` and a nonzero
(10-knot) vector-interpolated speed from the upper sample. -/
theorem C10_interp_variable_flag :
    (∀ (r1 r2 : WindSample) (frac : ℝ),
        (interpSample r1 r2 frac).light_variable = r1.light_variable)
    ∧ interpSample { dir := 0, speed_kt := 0, temp_c := 0, light_variable := true }
        { dir := 0, speed_kt := 20, temp_c := 0, light_variable := false } (1/2)
      = { dir := 0, speed_kt := 10, temp_c := 0, light_variable := true } := by
  constructor
  · intro r1 r2 frac
    rfl
  · have hten : pyRoundR ((10 : ℝ)) = 10 := by simpa using pyRoundR_intCast 10
    have hsq : Real.sqrt ((100 : ℝ)) = 10 := sqrt_hundred
    have hdeg : degrees (atan2 0 10) = 0 := by
      rw [atan2_zero_ten]
      simp [degrees]
    simp only [interpSample, to_uv, radians]
    norm_num [hsq, hten, hdeg, pyRoundR_zero]

/-- C6 counterexample: the decoder maps the token `"5010"` (first group
`DD = 50`, which escapes the `DD > 50` high-wind correction) to direction 500°,
outside the claimed range `[0, 360)`. -/
theorem C6_counterexample :
    decode_fd "5010" 3000
      = some { dir := 500, speed_kt := 10, temp_c := 0, light_variable := false }
    ∧ ¬((500 : ℤ) < 360) := ⟨by decide, by decide⟩

/-- C6 (amended): every decoded sample has direction in `[0, 500]` (the two
directly-coded digits reach 50 after the high-wind correction) and speed ≥ 0;
every interpolated sample has direction in `[0, 360)` and speed ≥ 0. -/
theorem C6_wind_sample_ranges :
    (∀ (code : String) (alt : ℤ) (s : WindSample), decode_fd code alt = some s →
        0 ≤ s.dir ∧ s.dir ≤ 500 ∧ 0 ≤ s.speed_kt)
    ∧ (∀ (r1 r2 : WindSample) (frac : ℝ),
        0 ≤ (interpSample r1 r2 frac).dir ∧ (interpSample r1 r2 frac).dir < 360
          ∧ 0 ≤ (interpSample r1 r2 frac).speed_kt) := by
  constructor
  · intro code alt s h
    simp only [decode_fd, decodeCore] at h
    split at h
    · exact absurd h (by simp)
    · split at h
      · injection h with h'
        rw [← h']
        refine ⟨le_refl 0, by norm_num, le_refl 0⟩
      · split at h
        · exact absurd h (by simp)
        · rename_i dd0 ss0 tt heq
          injection h with h'
          rw [← h']
          obtain ⟨hdd, _⟩ := matchFD_bounds heq
          simp only [mkStandard]
          refine ⟨by positivity, ?_, by positivity⟩
          split
          · rename_i h50
            have : dd0 - 50 ≤ 49 := by omega
            have hle : ((dd0 - 50 : ℕ) : ℤ) ≤ 49 := by exact_mod_cast this
            omega
          · rename_i h50
            have : dd0 ≤ 50 := by omega
            have hle : ((dd0 : ℕ) : ℤ) ≤ 50 := by exact_mod_cast this
            omega
  · intro r1 r2 frac
    simp only [interpSample]
    refine ⟨?_, ?_, pyRoundR_nonneg (Real.sqrt_nonneg _)⟩
    · split
      · exact Int.emod_nonneg _ (by norm_num)
      · exact le_refl 0
    · split
      · exact Int.emod_lt_of_pos _ (by norm_num)
      · norm_num

/-! ### FD table parsing (`winds_aloft.py`, `_parse_fd_table`)

The table text is processed as a list of characters: `splitOnNL` models
`str.splitlines()` for newline-separated text, `pySplitChars` models the
argument-free `str.split()` (whitespace runs, no empty fields), and
`matchesHeader` / `findAlts` model `re.match(r'^FT\s+\d{4,5}', line)` and
`re.findall(r'\d{4,5}', line)`. -/

def splitOnNL : List Char → List (List Char)
  | [] => [[]]
  | c :: rest =>
    if c = '\n' then [] :: splitOnNL rest
    else
      match splitOnNL rest with
      | [] => [[c]]
      | l :: ls => (c :: l) :: ls

def natOfDigits (l : List Char) : ℕ :=
  l.foldl (fun a c => a * 10 + digitVal c) 0

/-- `re.match(r'^FT\s+\d{4,5}', line)`: literal `FT`, at least one whitespace
character, then at least four digits. -/
def matchesHeader (l : List Char) : Bool :=
  match l with
  | 'F' :: 'T' :: rest =>
    decide (1 ≤ (rest.takeWhile isPySpace).length)
      && decide (4 ≤ ((rest.dropWhile isPySpace).takeWhile Char.isDigit).length)
  | _ => false

/-- The non-overlapping greedy matches of `\d{4,5}` inside one maximal digit
run: chunks of five while five or more digits remain, then a final chunk of
exactly four if one is left. -/
def chunkRun : List Char → List ℕ
  | a :: b :: c :: d :: e :: rest => natOfDigits [a, b, c, d, e] :: chunkRun rest
  | [a, b, c, d] => [natOfDigits [a, b, c, d]]
  | _ => []

/-- The maximal digit runs of a line, in order (`cur` accumulates the digits
of the run being scanned, in reverse). -/
def digitRunsAux : List Char → List Char → List (List Char)
  | [], cur => if cur = [] then [] else [cur.reverse]
  | c :: rest, cur =>
    if c.isDigit then digitRunsAux rest (c :: cur)
    else if cur = [] then digitRunsAux rest []
    else cur.reverse :: digitRunsAux rest []

def digitRuns (l : List Char) : List (List Char) := digitRunsAux l []

/-- `re.findall(r'\d{4,5}', line)` as numbers. -/
def findAlts (l : List Char) : List ℕ :=
  (digitRuns l).foldr (fun r acc => chunkRun r ++ acc) []

/-- The header-search loop: index and altitude list of the first line matching
the header pattern. -/
def findHeader : List (List Char) → ℕ → Option (ℕ × List ℕ)
  | [], _ => none
  | l :: ls, i => if matchesHeader l then some (i, findAlts l) else findHeader ls (i + 1)

/-- Argument-free `str.split()`: fields separated by whitespace runs, with no
empty fields (`cur` accumulates the field being scanned, in reverse). -/
def pySplitAux : List Char → List Char → List (List Char)
  | [], cur => if cur = [] then [] else [cur.reverse]
  | c :: rest, cur =>
    if isPySpace c then
      if cur = [] then pySplitAux rest [] else cur.reverse :: pySplitAux rest []
    else pySplitAux rest (c :: cur)

def pySplitChars (l : List Char) : List (List Char) := pySplitAux l []

/-- The station-row loop: skip blank lines, split the line on whitespace, and
return the fields of the first row whose (upper-cased) first field equals the
station id or its 3-letter form.  The source `break`s on the first match. -/
def findStationRow (ls : List (List Char)) (sid sid3 : List Char) :
    Option (List (List Char)) :=
  match ls with
  | [] => none
  | l :: rest =>
    if l.all isPySpace then findStationRow rest sid sid3
    else
      match pySplitChars l with
      | [] => findStationRow rest sid sid3
      | p0 :: ps =>
        if p0.map Char.toUpper = sid ∨ p0.map Char.toUpper = sid3
        then some (p0 :: ps)
        else findStationRow rest sid sid3

/-- The per-column decode loop: pair each header altitude with the field at
the following index (`parts[col_idx + 1]`, while in range) and keep the
decodable cells, keyed by column altitude. -/
def buildStationData (header_alts : List ℕ) (parts : List (List Char)) :
    List (ℕ × WindSample) :=
  (header_alts.zip parts.tail).filterMap
    (fun p => (decodeCore p.2 (p.1 : ℤ)).map (fun s => (p.1, s)))

/-- Dict lookup `station_data[alt]` with Python overwrite semantics: the last
binding of a duplicated column altitude wins. -/
def sdLookup (sd : List (ℕ × WindSample)) (a : ℕ) : Option WindSample :=
  sd.reverse.lookup a

/-- `sorted(station_data.keys())`. -/
def sdKeys (sd : List (ℕ × WindSample)) : List ℕ :=
  List.insertionSort (· ≤ ·) (sd.map Prod.fst).dedup

/-- `max(a for a in available if a <= alt_ft)` (0 when empty; the caller only
uses it when the filtered list is nonempty). -/
def maxLE (l : List ℕ) (x : ℤ) : ℕ :=
  ((List.filter (fun a : ℕ => decide ((a : ℤ) ≤ x)) l).max?).getD 0

/-- `min(a for a in available if a >= alt_ft)` (0 when empty; the caller only
uses it when the filtered list is nonempty). -/
def minGE (l : List ℕ) (x : ℤ) : ℕ :=
  ((List.filter (fun a : ℕ => decide (x ≤ (a : ℤ))) l).min?).getD 0

/-- `_parse_fd_table(text, station_id, alt_ft)` (`winds_aloft.py` lines
41–126).  Note the header guard: Python's `if not header_idx or not
header_alts: return None` is truthy not only when no header line exists but
also when the header sits on line index 0, since `not 0` is `True`. -/
noncomputable def parse_fd_table (text : String) (station_id : String) (alt_ft : ℤ) :
    Option WindSample :=
  if text.data = [] then none
  else
    let lines := splitOnNL text.data
    match findHeader lines 0 with
    | none => none
    | some (header_idx, header_alts) =>
      if header_idx = 0 ∨ header_alts = [] then none
      else
        let sid := station_id.data.map Char.toUpper
        let sid3 := if sid.length = 4
            ∧ (sid.head? = some 'K' ∨ sid.head? = some 'C' ∨ sid.head? = some 'M'
               ∨ sid.head? = some 'P')
          then sid.tail else sid
        match findStationRow (lines.drop (header_idx + 1)) sid sid3 with
        | none => none
        | some parts =>
          match sdKeys (buildStationData header_alts parts) with
          | [] => none
          | lo0 :: restKeys =>
            let station_data := buildStationData header_alts parts
            let hi0 := (lo0 :: restKeys).getLast (List.cons_ne_nil lo0 restKeys)
            if alt_ft ≤ (lo0 : ℤ) then sdLookup station_data lo0
            else if (hi0 : ℤ) ≤ alt_ft then sdLookup station_data hi0
            else
              let lo_alt := maxLE (lo0 :: restKeys) alt_ft
              let hi_alt := minGE (lo0 :: restKeys) alt_ft
              if lo_alt = hi_alt then sdLookup station_data lo_alt
              else
                match sdLookup station_data lo_alt, sdLookup station_data hi_alt with
                | some r1, some r2 =>
                  some (interpSample r1 r2
                    (((alt_ft : ℝ) - (lo_alt : ℝ)) / ((hi_alt : ℝ) - (lo_alt : ℝ))))
                | _, _ => none

/-- C8 (code bug): the same valid table is rejected when its header line is
the first line of the text (`header_idx = 0` is conflated with "no header" by
Python's `not header_idx`), yet accepted when any line precedes the header. -/
theorem C8_header_line_zero_bug :
    parse_fd_table "FT  3000\nABI 0311+00" "ABI" 3000 = none
    ∧ parse_fd_table "REPORT\nFT  3000\nABI 0311+00" "ABI" 3000
        = some { dir := 30, speed_kt := 11, temp_c := 0, light_variable := false } :=
  ⟨by decide, by decide⟩

/-! ### Fuel planning (`fuel_plan.py`) and wind adjustment (`winds_aloft.py`)

The POH record keeps the numeric performance fields used by
`compute_fuel_plan`; the fuel-unit key selection (`fuel_gph` vs `fuel_pph`)
is collapsed into the single `burn` field of each phase/row.  Airport dicts
enter only through their elevations, and the aircraft dict only through
`aircraft.get("cruise_kts", 250)`, so those are direct real parameters. -/

structure PhasePerf where
  fpm : ℝ
  ktas : ℝ
  burn : ℝ

structure POH where
  fuel_capacity : ℝ
  taxi_fuel : ℝ
  reserve_fuel : ℝ
  contingency_pct : ℝ
  climb : PhasePerf
  descent : PhasePerf
  cruise_table : List CruiseRow

/-- `get_cruise_row(poh, target_fl)` (`poh_data.py`). -/
def get_cruise_row (poh : POH) (target_fl : ℤ) : Option CruiseRow :=
  get_cruise_row_table poh.cruise_table target_fl

/-- The fuel-plan dict of `compute_fuel_plan` / `adjust_fuel_plan_for_wind`.
`fuel_ok` is the Python boolean `block_fuel <= usable_capacity`.  The wind
keys do not exist on a freshly computed plan; here they are fields holding
neutral defaults until `adjust_fuel_plan_for_wind` sets them. -/
structure FuelPlan where
  poh : POH
  cruise_fl : ℤ
  cruise_ktas : ℝ
  cruise_notes : String
  power_pct : ℝ
  taxi_fuel : ℝ
  climb_fuel : ℝ
  climb_time_hr : ℝ
  climb_dist_nm : ℝ
  climb_burn_rate : ℝ
  cruise_fuel : ℝ
  cruise_time_hr : ℝ
  cruise_dist_nm : ℝ
  cruise_burn_rate : ℝ
  descent_fuel : ℝ
  descent_time_hr : ℝ
  descent_dist_nm : ℝ
  descent_burn_rate : ℝ
  trip_fuel : ℝ
  contingency : ℝ
  reserve : ℝ
  block_fuel : ℝ
  total_time_hr : ℝ
  usable_capacity : ℝ
  fuel_ok : Prop
  max_range_nm : ℝ
  endurance_hr : ℝ
  wind_dir : ℤ
  wind_speed : ℤ
  wind_temp_c : ℤ
  wind_hw : ℝ
  wind_gs : ℝ
  wind_station : String
  wind_adjusted : Bool

/-- `compute_fuel_plan(dep, arr, aircraft, dist_nm, cruise_fl)`
(`fuel_plan.py` lines 10–106).  The unused `flight_rules` parameter is
dropped. -/
noncomputable def compute_fuel_plan (poh : POH) (cruise_kts_default : ℝ)
    (dep_elev arr_elev dist_nm : ℝ) (cruise_fl : ℤ) : FuelPlan :=
  let taxi := poh.taxi_fuel
  let climb_to : ℝ := (cruise_fl : ℝ) * 100
  let climb_delta := max 0 (climb_to - dep_elev)
  let climb_time_hr := climb_delta / poh.climb.fpm / 60
  let climb_dist_nm := poh.climb.ktas * climb_time_hr
  let climb_fuel := poh.climb.burn * climb_time_hr
  let cruise_row := get_cruise_row poh cruise_fl
  let cruise_ktas : ℝ := match cruise_row with
    | some r => ((r.ktas : ℚ) : ℝ)
    | none => cruise_kts_default
  let cruise_burn : ℝ := match cruise_row with
    | some r => ((r.burn : ℚ) : ℝ)
    | none => 0
  let power_pct : ℝ := match cruise_row with
    | some r => ((r.power_pct : ℚ) : ℝ)
    | none => 75
  let cruise_notes : String := match cruise_row with
    | some r => r.notes
    | none => ""
  let descent_delta := max 0 (climb_to - arr_elev)
  let descent_time_hr := descent_delta / poh.descent.fpm / 60
  let descent_dist_nm := poh.descent.ktas * descent_time_hr
  let descent_fuel := poh.descent.burn * descent_time_hr
  let cruise_dist_nm := max 0 (dist_nm - climb_dist_nm - descent_dist_nm)
  let cruise_time_hr := if 0 < cruise_ktas then cruise_dist_nm / cruise_ktas else 0
  let cruise_fuel := cruise_burn * cruise_time_hr
  let total_time_hr := climb_time_hr + cruise_time_hr + descent_time_hr
  let trip_fuel := climb_fuel + cruise_fuel + descent_fuel
  let contingency := trip_fuel * (poh.contingency_pct / 100)
  let reserve := poh.reserve_fuel
  let block_fuel := taxi + trip_fuel + contingency + reserve
  let usable := poh.fuel_capacity
  let endurance_hr := if 0 < cruise_burn then (usable - taxi - reserve) / cruise_burn else 0
  { poh := poh, cruise_fl := cruise_fl, cruise_ktas := cruise_ktas
  , cruise_notes := cruise_notes, power_pct := power_pct
  , taxi_fuel := taxi
  , climb_fuel := climb_fuel, climb_time_hr := climb_time_hr
  , climb_dist_nm := climb_dist_nm, climb_burn_rate := poh.climb.burn
  , cruise_fuel := cruise_fuel, cruise_time_hr := cruise_time_hr
  , cruise_dist_nm := cruise_dist_nm, cruise_burn_rate := cruise_burn
  , descent_fuel := descent_fuel, descent_time_hr := descent_time_hr
  , descent_dist_nm := descent_dist_nm, descent_burn_rate := poh.descent.burn
  , trip_fuel := trip_fuel, contingency := contingency, reserve := reserve
  , block_fuel := block_fuel, total_time_hr := total_time_hr
  , usable_capacity := usable, fuel_ok := block_fuel ≤ usable
  , max_range_nm := endurance_hr * cruise_ktas, endurance_hr := endurance_hr
  , wind_dir := 0, wind_speed := 0, wind_temp_c := 0, wind_hw := 0
  , wind_gs := 0, wind_station := "", wind_adjusted := false }

/-- The wind dict consumed by `adjust_fuel_plan_for_wind`: a decoded sample
plus the `station` key added by `get_winds_at_point`. -/
structure WindRec where
  dir : ℤ
  speed_kt : ℤ
  temp_c : ℤ
  light_variable : Bool
  station : String

/-- `adjust_fuel_plan_for_wind(fp, wind, course_deg)` (`winds_aloft.py`
lines 299–337).  `wind = none` models a missing/empty wind dict. -/
noncomputable def adjust_fuel_plan_for_wind (fp : FuelPlan) (wind : Option WindRec)
    (course_deg : ℝ) : FuelPlan :=
  match wind with
  | none =>
    { fp with wind_dir := 0, wind_speed := 0, wind_hw := 0, wind_gs := fp.cruise_ktas
            , wind_adjusted := false, wind_station := "N/A" }
  | some w =>
    if w.light_variable then
      { fp with wind_dir := 0, wind_speed := 0, wind_hw := 0, wind_gs := fp.cruise_ktas
              , wind_adjusted := false, wind_station := w.station }
    else
      let hw := headwind_component w.dir w.speed_kt course_deg
      let gs := wind_corrected_groundspeed fp.cruise_ktas w.dir w.speed_kt course_deg
      let new_cruise_time := if 0 < gs then fp.cruise_dist_nm / gs else fp.cruise_time_hr
      let new_cruise_fuel := fp.cruise_burn_rate * new_cruise_time
      let trip_fuel := fp.climb_fuel + new_cruise_fuel + fp.descent_fuel
      let contingency := trip_fuel * (fp.poh.contingency_pct / 100)
      let block_fuel := fp.taxi_fuel + trip_fuel + contingency + fp.reserve
      let total_time := fp.climb_time_hr + new_cruise_time + fp.descent_time_hr
      { fp with
        cruise_time_hr := new_cruise_time
      , cruise_fuel := new_cruise_fuel
      , trip_fuel := trip_fuel
      , contingency := contingency
      , block_fuel := block_fuel
      , total_time_hr := total_time
      , fuel_ok := block_fuel ≤ fp.usable_capacity
      , wind_dir := w.dir
      , wind_speed := w.speed_kt
      , wind_temp_c := w.temp_c
      , wind_hw := hw
      , wind_gs := (pyRoundR gs : ℝ)
      , wind_station := w.station
      , wind_adjusted := true }

/-- The FuelPlan arithmetic invariant of the spec, for a route of length
`dist_nm`. -/
def FuelPlanInvariant (dist_nm : ℝ) (p : FuelPlan) : Prop :=
  p.block_fuel = p.taxi_fuel + p.trip_fuel + p.contingency + p.reserve
  ∧ p.trip_fuel = p.climb_fuel + p.cruise_fuel + p.descent_fuel
  ∧ 0 ≤ p.climb_dist_nm ∧ 0 ≤ p.cruise_dist_nm ∧ 0 ≤ p.descent_dist_nm
  ∧ 0 ≤ p.climb_time_hr ∧ 0 ≤ p.cruise_time_hr ∧ 0 ≤ p.descent_time_hr
  ∧ p.cruise_dist_nm = max 0 (dist_nm - p.climb_dist_nm - p.descent_dist_nm)

/-- C1: every plan computed by `compute_fuel_plan` (for a model with positive
climb/descent rates and non-negative climb/descent airspeeds) satisfies the
fuel identities `block = taxi + trip + contingency + reserve` and
`trip = climb + cruise + descent`, non-negative phase distances and times, and
`cruise_distance = max(0, total − climb − descent)`; and so does every plan
produced from it by `adjust_fuel_plan_for_wind`, for any wind and course. -/
theorem C1_fuel_plan_invariants (poh : POH) (ck dep arr dist_nm : ℝ) (fl : ℤ)
    (h1 : 0 < poh.climb.fpm) (h2 : 0 ≤ poh.climb.ktas)
    (h3 : 0 < poh.descent.fpm) (h4 : 0 ≤ poh.descent.ktas) :
    FuelPlanInvariant dist_nm (compute_fuel_plan poh ck dep arr dist_nm fl)
    ∧ ∀ (wind : Option WindRec) (course : ℝ),
        FuelPlanInvariant dist_nm
          (adjust_fuel_plan_for_wind (compute_fuel_plan poh ck dep arr dist_nm fl)
            wind course) := by
  have hct : (0 : ℝ) ≤ max 0 ((fl : ℝ) * 100 - dep) / poh.climb.fpm / 60 :=
    div_nonneg (div_nonneg (le_max_left 0 _) h1.le) (by norm_num)
  have hdt : (0 : ℝ) ≤ max 0 ((fl : ℝ) * 100 - arr) / poh.descent.fpm / 60 :=
    div_nonneg (div_nonneg (le_max_left 0 _) h3.le) (by norm_num)
  have hbase : FuelPlanInvariant dist_nm (compute_fuel_plan poh ck dep arr dist_nm fl) := by
    refine ⟨rfl, rfl, mul_nonneg h2 hct, le_max_left 0 _, mul_nonneg h4 hdt, hct, ?_, hdt, rfl⟩
    simp only [compute_fuel_plan]
    split
    · rename_i hpos
      exact div_nonneg (le_max_left 0 _) (le_of_lt hpos)
    · exact le_refl 0
  refine ⟨hbase, ?_⟩
  intro wind course
  match wind with
  | none => exact hbase
  | some w =>
    by_cases hv : w.light_variable = true
    · simp only [adjust_fuel_plan_for_wind]
      rw [if_pos hv]
      exact hbase
    · simp only [adjust_fuel_plan_for_wind]
      rw [if_neg hv]
      obtain ⟨hb, ht, hd1, hd2, hd3, ht1, ht2, ht3, heq⟩ := hbase
      have hgs : 0 < wind_corrected_groundspeed
          (compute_fuel_plan poh ck dep arr dist_nm fl).cruise_ktas
          w.dir w.speed_kt course := by
        unfold wind_corrected_groundspeed
        exact lt_of_lt_of_le zero_lt_one (le_max_left _ _)
      rw [if_pos hgs]
      exact ⟨rfl, rfl, hd1, hd2, hd3, ht1, div_nonneg hd2 hgs.le, ht3, heq⟩

/-- C7: frame conditions of `adjust_fuel_plan_for_wind`.  Absent wind gives a
copy with neutral wind fields, station "N/A" and `adjusted = false`; a
variable wind gives the same with the wind's station; otherwise exactly the
cruise time/fuel, trip fuel, contingency, block fuel, total time, fuel-ok flag
and the wind-record fields are recomputed — climb and descent phases, taxi,
reserve and usable capacity are untouched — with groundspeed
`max(1, cruiseTAS − headwind)`. -/
theorem C7_adjust_frame (fp : FuelPlan) (course : ℝ) :
    (adjust_fuel_plan_for_wind fp none course
      = { fp with wind_dir := 0, wind_speed := 0, wind_hw := 0
                , wind_gs := fp.cruise_ktas, wind_adjusted := false
                , wind_station := "N/A" })
    ∧ (∀ w : WindRec, w.light_variable = true →
        adjust_fuel_plan_for_wind fp (some w) course
          = { fp with wind_dir := 0, wind_speed := 0, wind_hw := 0
                    , wind_gs := fp.cruise_ktas, wind_adjusted := false
                    , wind_station := w.station })
    ∧ (∀ w : WindRec, w.light_variable = false →
        wind_corrected_groundspeed fp.cruise_ktas w.dir w.speed_kt course
            = max 1 (fp.cruise_ktas - headwind_component w.dir w.speed_kt course)
        ∧ adjust_fuel_plan_for_wind fp (some w) course
            = { fp with
                cruise_time_hr := fp.cruise_dist_nm
                  / wind_corrected_groundspeed fp.cruise_ktas w.dir w.speed_kt course
              , cruise_fuel := fp.cruise_burn_rate * (fp.cruise_dist_nm
                  / wind_corrected_groundspeed fp.cruise_ktas w.dir w.speed_kt course)
              , trip_fuel := fp.climb_fuel + fp.cruise_burn_rate * (fp.cruise_dist_nm
                  / wind_corrected_groundspeed fp.cruise_ktas w.dir w.speed_kt course)
                  + fp.descent_fuel
              , contingency := (fp.climb_fuel + fp.cruise_burn_rate * (fp.cruise_dist_nm
                  / wind_corrected_groundspeed fp.cruise_ktas w.dir w.speed_kt course)
                  + fp.descent_fuel) * (fp.poh.contingency_pct / 100)
              , block_fuel := fp.taxi_fuel
                  + (fp.climb_fuel + fp.cruise_burn_rate * (fp.cruise_dist_nm
                      / wind_corrected_groundspeed fp.cruise_ktas w.dir w.speed_kt course)
                      + fp.descent_fuel)
                  + (fp.climb_fuel + fp.cruise_burn_rate * (fp.cruise_dist_nm
                      / wind_corrected_groundspeed fp.cruise_ktas w.dir w.speed_kt course)
                      + fp.descent_fuel) * (fp.poh.contingency_pct / 100)
                  + fp.reserve
              , total_time_hr := fp.climb_time_hr + fp.cruise_dist_nm
                  / wind_corrected_groundspeed fp.cruise_ktas w.dir w.speed_kt course
                  + fp.descent_time_hr
              , fuel_ok := fp.taxi_fuel
                  + (fp.climb_fuel + fp.cruise_burn_rate * (fp.cruise_dist_nm
                      / wind_corrected_groundspeed fp.cruise_ktas w.dir w.speed_kt course)
                      + fp.descent_fuel)
                  + (fp.climb_fuel + fp.cruise_burn_rate * (fp.cruise_dist_nm
                      / wind_corrected_groundspeed fp.cruise_ktas w.dir w.speed_kt course)
                      + fp.descent_fuel) * (fp.poh.contingency_pct / 100)
                  + fp.reserve ≤ fp.usable_capacity
              , wind_dir := w.dir
              , wind_speed := w.speed_kt
              , wind_temp_c := w.temp_c
              , wind_hw := headwind_component w.dir w.speed_kt course
              , wind_gs := (pyRoundR (wind_corrected_groundspeed fp.cruise_ktas
                  w.dir w.speed_kt course) : ℝ)
              , wind_station := w.station
              , wind_adjusted := true }) := by
  refine ⟨rfl, ?_, ?_⟩
  · intro w hv
    simp only [adjust_fuel_plan_for_wind]
    rw [if_pos hv]
  · intro w hv
    have hgs : 0 < wind_corrected_groundspeed fp.cruise_ktas w.dir w.speed_kt course := by
      unfold wind_corrected_groundspeed
      exact lt_of_lt_of_le zero_lt_one (le_max_left _ _)
    refine ⟨rfl, ?_⟩
    simp only [adjust_fuel_plan_for_wind]
    rw [if_neg (by simp [hv]), if_pos hgs]

theorem C4_cruise_row_interpolation_witness :
    get_cruise_row_table
      [ { fl := 85, ktas := 144, burn := 12.5, power_pct := 65, notes := "FL085" }
      , { fl := 105, ktas := 142, burn := 11.5, power_pct := 55, notes := "FL105" } ] 95
    = some { fl := 95, ktas := 143, burn := 12, power_pct := 60,
             notes := "Interpolated FL85–FL105" } := by
  rw [C4_cruise_row_interpolation
    [ { fl := 85, ktas := 144, burn := 12.5, power_pct := 65, notes := "FL085" }
    , { fl := 105, ktas := 142, burn := 11.5, power_pct := 55, notes := "FL105" } ] 95
    { fl := 85, ktas := 144, burn := 12.5, power_pct := 65, notes := "FL085" }
    { fl := 105, ktas := 142, burn := 11.5, power_pct := 55, notes := "FL105" }
    (by unfold flSorted; decide) (List.mem_cons_self _ _)
    (List.mem_cons_of_mem _ (List.mem_cons_self _ _))
    (by decide) (by decide) (by decide) (by decide)]
  norm_num [pyRoundQ, pyRound1Q]
  rfl

theorem C5_cruise_row_boundary_witness :
    get_cruise_row_table
        [ { fl := 85, ktas := 144, burn := 12.5, power_pct := 65, notes := "FL085" }
        , { fl := 105, ktas := 142, burn := 11.5, power_pct := 55, notes := "FL105" } ] 105
      = some { fl := 105, ktas := 142, burn := 11.5, power_pct := 55, notes := "FL105" }
    ∧ get_cruise_row_table
        [ { fl := 85, ktas := 144, burn := 12.5, power_pct := 65, notes := "FL085" }
        , { fl := 105, ktas := 142, burn := 11.5, power_pct := 55, notes := "FL105" } ] 50
      = some { fl := 85, ktas := 144, burn := 12.5, power_pct := 65, notes := "FL085" }
    ∧ get_cruise_row_table
        [ { fl := 85, ktas := 144, burn := 12.5, power_pct := 65, notes := "FL085" }
        , { fl := 105, ktas := 142, burn := 11.5, power_pct := 55, notes := "FL105" } ] 200
      = some ([ { fl := 85, ktas := 144, burn := 12.5, power_pct := 65, notes := "FL085" }
              , { fl := 105, ktas := 142, burn := 11.5, power_pct := 55
                , notes := "FL105" } ].getLast (List.cons_ne_nil _ _))
    ∧ get_cruise_row_table [] 200 = none := by
  refine ⟨?_, ?_, ?_, C5_cruise_row_boundary.2.2.2 200⟩
  · exact C5_cruise_row_boundary.1 _ 105
      { fl := 105, ktas := 142, burn := 11.5, power_pct := 55, notes := "FL105" }
      (by unfold flSorted; decide) (List.mem_cons_of_mem _ (List.mem_cons_self _ _)) rfl
  · exact (C5_cruise_row_boundary.2.1
      { fl := 85, ktas := 144, burn := 12.5, power_pct := 65, notes := "FL085" }
      [ { fl := 105, ktas := 142, burn := 11.5, power_pct := 55, notes := "FL105" } ] 50
      (by unfold flSorted; decide) (by decide)).1
  · exact (C5_cruise_row_boundary.2.2.1
      { fl := 85, ktas := 144, burn := 12.5, power_pct := 65, notes := "FL085" }
      [ { fl := 105, ktas := 142, burn := 11.5, power_pct := 55, notes := "FL105" } ] 200
      (by unfold flSorted; decide) (by decide)).1

theorem C2_wind_token_decode_witness :
    (∃ t, decode_fd (String.mk ('9' :: '9' :: '0' :: '0' :: ['-', '0', '9'])) 30000
        = some { dir := 0, speed_kt := 0, temp_c := t, light_variable := true })
    ∧ (∃ s, decode_fd (String.mk ['7', '8', '0', '3', '-', '2', '1']) 3000 = some s
        ∧ s.dir = (((78 : ℕ) : ℤ) - 50) * 10
        ∧ s.speed_kt = ((3 : ℕ) : ℤ) + 100 ∧ s.light_variable = false) :=
  ⟨C2_wind_token_decode.2.1 ['-', '0', '9'] 30000 (by decide),
   C2_wind_token_decode.2.2 ['7', '8', '0', '3', '-', '2', '1'] 3000 78 3 (some (-21))
     (by decide) (by decide) (by decide) (by decide)⟩

theorem C3_temperature_sign_witness :
    ((-41 : ℤ) ≤ 0)
    ∧ (∃ s, decode_fd (String.mk ['3', '2', '1', '0', '-', '0', '1']) 3000 = some s
        ∧ s.temp_c = -1) :=
  ⟨C3_temperature_sign.1 "296041" 30000
      { dir := 290, speed_kt := 60, temp_c := -41, light_variable := false }
      (by decide) (by decide),
   C3_temperature_sign.2 ['3', '2', '1', '0', '-', '0', '1'] 3000 32 10 (-1)
      (by decide) (by decide) (by decide)⟩

theorem C6_wind_sample_ranges_witness :
    ((0 : ℤ) ≤ 30 ∧ (30 : ℤ) ≤ 500 ∧ (0 : ℤ) ≤ 11)
    ∧ (0 ≤ (interpSample { dir := 0, speed_kt := 0, temp_c := 0, light_variable := true }
          { dir := 0, speed_kt := 20, temp_c := 0, light_variable := false } (1/2)).dir
        ∧ (interpSample { dir := 0, speed_kt := 0, temp_c := 0, light_variable := true }
          { dir := 0, speed_kt := 20, temp_c := 0, light_variable := false } (1/2)).dir < 360
        ∧ 0 ≤ (interpSample { dir := 0, speed_kt := 0, temp_c := 0, light_variable := true }
          { dir := 0, speed_kt := 20, temp_c := 0, light_variable := false } (1/2)).speed_kt) :=
  ⟨C6_wind_sample_ranges.1 "0311+00" 3000
      { dir := 30, speed_kt := 11, temp_c := 0, light_variable := false } (by decide),
   C6_wind_sample_ranges.2 { dir := 0, speed_kt := 0, temp_c := 0, light_variable := true }
      { dir := 0, speed_kt := 20, temp_c := 0, light_variable := false } (1/2)⟩

theorem C1_fuel_plan_invariants_witness :
    FuelPlanInvariant 300
      (compute_fuel_plan ⟨53, 1.4, 5, 5, ⟨700, 75, 10⟩, ⟨500, 120, 9⟩, []⟩
        250 500 400 300 95)
    ∧ FuelPlanInvariant 300
      (adjust_fuel_plan_for_wind
        (compute_fuel_plan ⟨53, 1.4, 5, 5, ⟨700, 75, 10⟩, ⟨500, 120, 9⟩, []⟩
          250 500 400 300 95)
        (some ⟨360, 20, -5, false, "ABI"⟩) 90) := by
  have h := C1_fuel_plan_invariants ⟨53, 1.4, 5, 5, ⟨700, 75, 10⟩, ⟨500, 120, 9⟩, []⟩
    250 500 400 300 95 (by norm_num) (by norm_num) (by norm_num) (by norm_num)
  exact ⟨h.1, h.2 (some ⟨360, 20, -5, false, "ABI"⟩) 90⟩

/-- Concrete plan used to instantiate the frame conditions of C7. -/
noncomputable def fp_example : FuelPlan :=
  { poh := ⟨53, 1.4, 5, 5, ⟨700, 75, 10⟩, ⟨500, 120, 9⟩, []⟩
  , cruise_fl := 95, cruise_ktas := 143, cruise_notes := "", power_pct := 60
  , taxi_fuel := 1.4, climb_fuel := 2, climb_time_hr := 0.2, climb_dist_nm := 15
  , climb_burn_rate := 10, cruise_fuel := 20, cruise_time_hr := 1.8
  , cruise_dist_nm := 260, cruise_burn_rate := 11, descent_fuel := 1.5
  , descent_time_hr := 0.3, descent_dist_nm := 25, descent_burn_rate := 9
  , trip_fuel := 23.5, contingency := 1.2, reserve := 5, block_fuel := 31.1
  , total_time_hr := 2.3, usable_capacity := 53, fuel_ok := True
  , max_range_nm := 600, endurance_hr := 4.2, wind_dir := 0, wind_speed := 0
  , wind_temp_c := 0, wind_hw := 0, wind_gs := 0, wind_station := ""
  , wind_adjusted := false }

theorem C7_adjust_frame_witness :
    (adjust_fuel_plan_for_wind fp_example (some ⟨0, 0, 0, true, "DFW"⟩) 90).wind_adjusted
        = false
    ∧ (adjust_fuel_plan_for_wind fp_example (some ⟨360, 20, -5, false, "DFW"⟩) 90).cruise_time_hr
        = fp_example.cruise_dist_nm
          / wind_corrected_groundspeed fp_example.cruise_ktas 360 20 90 := by
  constructor
  · rw [(C7_adjust_frame fp_example 90).2.1 ⟨0, 0, 0, true, "DFW"⟩ rfl]
  · rw [((C7_adjust_frame fp_example 90).2.2 ⟨360, 20, -5, false, "DFW"⟩ rfl).2]
